import Mathlib

/-
  Verification of the HAR entry classification and report-formatting pipeline
  of har-api-extract.

  The embedding follows the repository's sources:
  * `src/src/parser.ts` — the classifier (`isJSONRequest`, `isJSONResponse`,
    `isGraphQLRequest`, `filterJSONAndGraphQLEntries`);
  * `src/unnamed/part_001` (the CLI `src/formatter.ts`, identical in all
    relevant logic to `src/chrome-extension/formatter.js`) — the formatter
    (`parseJSONSafely`, `formatEntry`, `formatForLLM`);
  * `src/src/types.ts` — the HAR data shapes.

  JavaScript values produced by `JSON.parse` are modelled by `JsValue`
  (numbers as exact rationals), and the ECMAScript builtins `JSON.parse` and
  `JSON.stringify(v, null, 2)` are modelled by executable functions
  `jsonParse` and `jsonStringify2` that follow the JSON grammar and the
  stringification algorithm (string lengths and indices are counted in
  code points rather than UTF-16 units).
-/

mutual

/-- A JavaScript value as produced by `JSON.parse`: numbers are modelled as
exact rationals. Objects (`JsFields`) are ordered key/value sequences;
`jsonParse` builds them with first-occurrence position and last-assignment
value, as JS does. The three types are mutually inductive so every
operation below is plain structural recursion. -/
inductive JsValue : Type where
  | null : JsValue
  | bool (b : Bool) : JsValue
  | num (q : ℚ) : JsValue
  | str (s : String) : JsValue
  | arr (elems : JsList) : JsValue
  | obj (fields : JsFields) : JsValue

/-- The element sequence of a JavaScript array value. -/
inductive JsList : Type where
  | nil : JsList
  | cons (hd : JsValue) (tl : JsList) : JsList

/-- The ordered field sequence of a JavaScript object value. -/
inductive JsFields : Type where
  | nil : JsFields
  | cons (key : String) (val : JsValue) (tl : JsFields) : JsFields

end

/-- Number of elements of a `JsList`. -/
def jsListLen : JsList → Nat
  | .nil => 0
  | .cons _ tl => jsListLen tl + 1

/-- Number of fields of a `JsFields`. -/
def jsFieldsLen : JsFields → Nat
  | .nil => 0
  | .cons _ _ tl => jsFieldsLen tl + 1

/-- First binding of `key` among object fields. -/
def fieldsFind : JsFields → String → Option JsValue
  | .nil, _ => none
  | .cons k v tl, key => if k = key then some v else fieldsFind tl key

/-- JavaScript truthiness of a parsed JSON value: `null`, `false`, `0` and
`""` are falsy, every array and object is truthy. -/
def jsTruthy : JsValue → Bool
  | .null => false
  | .bool b => b
  | .num q => if q = 0 then false else true
  | .str s => if s = "" then false else true
  | .arr _ => true
  | .obj _ => true

/-- JavaScript property access `v.key` on a parsed JSON value: a field lookup
on objects, `undefined` (here `none`) on every other value. -/
def jsGetField (v : JsValue) (key : String) : Option JsValue :=
  match v with
  | .obj fields => fieldsFind fields key
  | _ => none

/-- Truthiness of a possibly-`undefined` JavaScript value. -/
def optTruthy : Option JsValue → Bool
  | none => false
  | some v => jsTruthy v

/-- Optional chaining `b?.key`: `undefined` stays `undefined`. -/
def optField (b : Option JsValue) (key : String) : Option JsValue :=
  match b with
  | none => none
  | some v => jsGetField v key

/-- `Object.keys(v).length` for a parsed JSON value: field count of an
object, element count of an array, code-point count of a string, `0` for
the primitives. -/
def jsKeysCount : JsValue → Nat
  | .obj fields => jsFieldsLen fields
  | .arr elems => jsListLen elems
  | .str s => s.length
  | _ => 0

/-- Does `needle` lead (start) `haystack`? Helper for the substring test
behind JavaScript's `String.prototype.includes`. -/
def leadMatch : List Char → List Char → Bool
  | [], _ => true
  | _ :: _, [] => false
  | a :: as, b :: bs => a = b && leadMatch as bs

/-- Does `needle` occur contiguously inside `haystack`? -/
def hasOccurrence (needle : List Char) : List Char → Bool
  | [] => needle.isEmpty
  | c :: cs => leadMatch needle (c :: cs) || hasOccurrence needle cs

/-- JavaScript `s.includes(sub)`. -/
def strIncludes (s sub : String) : Bool :=
  hasOccurrence sub.toList s.toList

/-- `sub` occurs as a contiguous substring of `s` (the specification-level
reading of `includes`). -/
def ContainsSub (s sub : String) : Prop :=
  ∃ pre post, s = pre ++ sub ++ post

/-- ASCII lowering of one character, the effect of
`String.prototype.toLowerCase` on header names. -/
def lowerChar (c : Char) : Char :=
  if 'A' ≤ c ∧ c ≤ 'Z' then Char.ofNat (c.toNat + 32) else c

/-- JavaScript `s.toLowerCase()` restricted to ASCII. -/
def lowerStr (s : String) : String :=
  String.mk (s.toList.map lowerChar)

/-- JSON insignificant whitespace, skipped between tokens by `JSON.parse`. -/
def skipWs : List Char → List Char
  | c :: cs => if c = ' ' ∨ c = '\t' ∨ c = '\n' ∨ c = '\x0d' then skipWs cs else c :: cs
  | [] => []

/-- Is `c` a decimal digit? -/
def isDigitChar (c : Char) : Bool :=
  '0' ≤ c && c ≤ '9'

/-- Numeric value of a decimal digit. -/
def digitVal (c : Char) : Nat :=
  c.toNat - '0'.toNat

/-- Split a character list into its leading run of decimal digits and the
rest. -/
def takeDigits : List Char → (List Char × List Char)
  | c :: cs =>
      if isDigitChar c then
        let p := takeDigits cs
        (c :: p.1, p.2)
      else ([], c :: cs)
  | [] => ([], [])

/-- The natural number denoted by a digit run. -/
def digitsToNat (ds : List Char) : Nat :=
  ds.foldl (fun a c => a * 10 + digitVal c) 0

/-- Parse the optional fraction part `.digits` of a JSON number; returns the
fractional value. -/
def parseFrac : List Char → Option (ℚ × List Char)
  | '.' :: r =>
      let p := takeDigits r
      if p.1 = [] then none
      else some ((digitsToNat p.1 : ℚ) / (10 : ℚ) ^ p.1.length, p.2)
  | cs => some (0, cs)

/-- Parse the optional exponent part `e[+-]digits` of a JSON number. -/
def parseExp : List Char → Option (Int × List Char)
  | c :: r =>
      if c = 'e' ∨ c = 'E' then
        let sp : Int × List Char :=
          match r with
          | '+' :: r2 => (1, r2)
          | '-' :: r2 => (-1, r2)
          | _ => (1, r)
        let p := takeDigits sp.2
        if p.1 = [] then none else some (sp.1 * (digitsToNat p.1 : Int), p.2)
      else some (0, c :: r)
  | [] => some (0, [])

/-- Parse a JSON number (sign, integer part without leading zeros, optional
fraction, optional exponent) to an exact rational. -/
def parseNumber (cs : List Char) : Option (ℚ × List Char) :=
  let sp : Bool × List Char :=
    match cs with
    | '-' :: r => (true, r)
    | _ => (false, cs)
  let p := takeDigits sp.2
  if p.1 = [] then none
  else if 1 < p.1.length ∧ p.1.headD 'x' = '0' then none
  else
    match parseFrac p.2 with
    | none => none
    | some (f, cs3) =>
        match parseExp cs3 with
        | none => none
        | some (e, cs4) =>
            let base : ℚ := (digitsToNat p.1 : ℚ) + f
            let mag : ℚ := base * (10 : ℚ) ^ e
            some (if sp.1 then -mag else mag, cs4)

/-- Hexadecimal value of a character, for `\u` escapes. -/
def hexVal (c : Char) : Option Nat :=
  if isDigitChar c then some (digitVal c)
  else if 'a' ≤ c ∧ c ≤ 'f' then some (c.toNat - 'a'.toNat + 10)
  else if 'A' ≤ c ∧ c ≤ 'F' then some (c.toNat - 'A'.toNat + 10)
  else none

/-- Prepend a decoded character to the result of parsing the rest of a JSON
string body. -/
def consStr (c : Char) : Option (List Char × List Char) → Option (List Char × List Char)
  | some (chars, rest) => some (c :: chars, rest)
  | none => none

/-- Parse the body of a JSON string after the opening quote: plain
characters, the short escapes and `\uXXXX`, up to the closing quote.
Control characters must be escaped. `fuel` bounds the recursion. -/
def parseStrBody (fuel : Nat) (cs : List Char) : Option (List Char × List Char) :=
  match fuel with
  | 0 => none
  | fuel + 1 =>
      match cs with
      | [] => none
      | '"' :: rest => some ([], rest)
      | '\\' :: rest =>
          match rest with
          | [] => none
          | e :: r2 =>
              if e = '"' then consStr '"' (parseStrBody fuel r2)
              else if e = '\\' then consStr '\\' (parseStrBody fuel r2)
              else if e = '/' then consStr '/' (parseStrBody fuel r2)
              else if e = 'b' then consStr '\x08' (parseStrBody fuel r2)
              else if e = 'f' then consStr '\x0c' (parseStrBody fuel r2)
              else if e = 'n' then consStr '\n' (parseStrBody fuel r2)
              else if e = 'r' then consStr '\x0d' (parseStrBody fuel r2)
              else if e = 't' then consStr '\t' (parseStrBody fuel r2)
              else if e = 'u' then
                match r2 with
                | h1 :: h2 :: h3 :: h4 :: r3 =>
                    match hexVal h1, hexVal h2, hexVal h3, hexVal h4 with
                    | some a, some b, some c, some d =>
                        consStr (Char.ofNat (((a * 16 + b) * 16 + c) * 16 + d)) (parseStrBody fuel r3)
                    | _, _, _, _ => none
                | _ => none
              else none
      | c :: rest =>
          if c.toNat < 32 then none
          else consStr c (parseStrBody fuel rest)

/-- Set a key in an object under construction: last assignment wins, first
occurrence fixes the position, as for JavaScript object literals. -/
def setKey : JsFields → String → JsValue → JsFields
  | .nil, k, v => .cons k v .nil
  | .cons k0 v0 rest, k, v =>
      if k0 = k then .cons k0 v rest else .cons k0 v0 (setKey rest k v)

/-- Fold the parsed members into an object, assignment by assignment. -/
def buildObjGo : JsFields → JsFields → JsFields
  | acc, .nil => acc
  | acc, .cons k v rest => buildObjGo (setKey acc k v) rest

/-- Build an object from parsed members, deduplicating keys as `JSON.parse`
does (position of first occurrence, value of last). -/
def buildObj (ms : JsFields) : JsFields :=
  buildObjGo .nil ms

mutual

/-- Parse one JSON value at the head of `cs` (whitespace already skipped).
`fuel` bounds the recursion; `jsonParse` supplies enough for any input. -/
def parseVal : Nat → List Char → Option (JsValue × List Char)
  | 0, _ => none
  | fuel + 1, cs =>
      match cs with
      | 'n' :: 'u' :: 'l' :: 'l' :: rest => some (.null, rest)
      | 't' :: 'r' :: 'u' :: 'e' :: rest => some (.bool true, rest)
      | 'f' :: 'a' :: 'l' :: 's' :: 'e' :: rest => some (.bool false, rest)
      | '"' :: rest =>
          match parseStrBody (rest.length + 1) rest with
          | some (chars, r) => some (.str (String.mk chars), r)
          | none => none
      | '[' :: rest =>
          match skipWs rest with
          | ']' :: r2 => some (.arr .nil, r2)
          | r1 =>
              match parseElems fuel r1 with
              | some (vs, r2) => some (.arr vs, r2)
              | none => none
      | '\x7b' :: rest =>
          match skipWs rest with
          | '\x7d' :: r2 => some (.obj .nil, r2)
          | r1 =>
              match parseMembers fuel r1 with
              | some (ms, r2) => some (.obj (buildObj ms), r2)
              | none => none
      | _ =>
          match parseNumber cs with
          | some (q, r) => some (.num q, r)
          | none => none

/-- Parse the comma-separated elements of a JSON array up to `]`. -/
def parseElems : Nat → List Char → Option (JsList × List Char)
  | 0, _ => none
  | fuel + 1, cs =>
      match parseVal fuel cs with
      | none => none
      | some (v, r) =>
          match skipWs r with
          | ',' :: r2 =>
              match parseElems fuel (skipWs r2) with
              | some (vs, r3) => some (.cons v vs, r3)
              | none => none
          | ']' :: r2 => some (.cons v .nil, r2)
          | _ => none

/-- Parse the comma-separated `"key": value` members of a JSON object up
to `}`. -/
def parseMembers : Nat → List Char → Option (JsFields × List Char)
  | 0, _ => none
  | fuel + 1, cs =>
      match cs with
      | '"' :: rest =>
          match parseStrBody (rest.length + 1) rest with
          | some (kchars, r) =>
              match skipWs r with
              | ':' :: r2 =>
                  match parseVal fuel (skipWs r2) with
                  | some (v, r3) =>
                      match skipWs r3 with
                      | ',' :: r5 =>
                          match parseMembers fuel (skipWs r5) with
                          | some (ms, r6) => some (.cons (String.mk kchars) v ms, r6)
                          | none => none
                      | '\x7d' :: r5 => some (.cons (String.mk kchars) v .nil, r5)
                      | _ => none
                  | none => none
              | _ => none
          | none => none
      | _ => none

end

/-- Modelled ECMAScript builtin `JSON.parse`: `none` when the text is not
valid JSON (the builtin throws), otherwise the parsed value. -/
def jsonParse (s : String) : Option JsValue :=
  match parseVal (2 * s.toList.length + 2) (skipWs s.toList) with
  | some (v, rest) => if skipWs rest = [] then some v else none
  | none => none

/-- One character of a JSON string literal as `JSON.stringify` escapes it:
quote, backslash and the named control escapes, `\uXXXX` for the remaining
control characters, everything else verbatim. -/
def escChars (c : Char) : List Char :=
  if c = '"' then ['\\', '"']
  else if c = '\\' then ['\\', '\\']
  else if c = '\x08' then ['\\', 'b']
  else if c = '\t' then ['\\', 't']
  else if c = '\n' then ['\\', 'n']
  else if c = '\x0c' then ['\\', 'f']
  else if c = '\x0d' then ['\\', 'r']
  else if c.toNat < 32 then
    '\\' :: 'u' :: '0' :: '0' ::
      (if c.toNat / 16 < 10 then Char.ofNat ('0'.toNat + c.toNat / 16)
       else Char.ofNat ('a'.toNat + c.toNat / 16 - 10)) ::
      [if c.toNat % 16 < 10 then Char.ofNat ('0'.toNat + c.toNat % 16)
       else Char.ofNat ('a'.toNat + c.toNat % 16 - 10)]
  else [c]

/-- The JSON string literal for `s`, as `JSON.stringify` writes a string:
surrounding double quotes with the content escaped by `escChars`. -/
def quoteJSONString (s : String) : String :=
  String.mk ('"' :: s.toList.foldr (fun c acc => escChars c ++ acc) ['"'])

/-- Decimal rendering of a parsed JSON number; integers render exactly as
JavaScript prints them, which is the only case the repository's data
exercises in the theorems below. -/
def jsNumToString (q : ℚ) : String :=
  if q.den = 1 then toString q.num else toString q

/-- The indentation `JSON.stringify(v, null, 2)` puts before a line at
nesting depth `n`. -/
def indentStr (n : Nat) : String :=
  String.mk (List.replicate (2 * n) ' ')

mutual

/-- Worker for `jsonStringify2`: pretty-print with 2-space indentation,
`depth` being the nesting depth of the value itself. -/
def strGo : Nat → JsValue → String
  | _, .null => "null"
  | _, .bool b => if b then "true" else "false"
  | _, .num q => jsNumToString q
  | _, .str s => quoteJSONString s
  | _, .arr .nil => "[]"
  | depth, .arr (.cons x xs) =>
      "[\n" ++ String.intercalate ",\n" (strItems (depth + 1) (.cons x xs)) ++
        "\n" ++ indentStr depth ++ "]"
  | _, .obj .nil => "\x7b\x7d"
  | depth, .obj (.cons k v ms) =>
      "\x7b\n" ++ String.intercalate ",\n" (strMembers (depth + 1) (.cons k v ms)) ++
        "\n" ++ indentStr depth ++ "\x7d"

/-- The rendered, indented lines of an array's elements. -/
def strItems : Nat → JsList → List String
  | _, .nil => []
  | depth, .cons x xs => (indentStr depth ++ strGo depth x) :: strItems depth xs

/-- The rendered, indented lines of an object's members. -/
def strMembers : Nat → JsFields → List String
  | _, .nil => []
  | depth, .cons k v ms =>
      (indentStr depth ++ quoteJSONString k ++ ": " ++ strGo depth v) :: strMembers depth ms

end

/-- Modelled ECMAScript builtin `JSON.stringify(v, null, 2)`: deterministic
pretty-printing with stable 2-space indentation. -/
def jsonStringify2 (v : JsValue) : String :=
  strGo 0 v

mutual

/-- JavaScript string coercion of a parsed JSON value, as template-literal
interpolation and `Array.prototype.join` apply it. -/
def jsDisplay : JsValue → String
  | .null => "null"
  | .bool b => if b then "true" else "false"
  | .num q => jsNumToString q
  | .str s => s
  | .arr xs => String.intercalate "," (displayItems xs)
  | .obj _ => "[object Object]"

/-- The coerced elements of an array, for `Array.prototype.join`. -/
def displayItems : JsList → List String
  | .nil => []
  | .cons x xs => jsDisplay x :: displayItems xs

end

/-- HAR header record, from `src/src/types.ts` (`HARHeader`). -/
structure HARHeader where
  name : String
  value : String
deriving DecidableEq

/-- HAR request post data, from `src/src/types.ts` (`HARPostData`): both
fields are required by the schema. -/
structure HARPostData where
  mimeType : String
  text : String
deriving DecidableEq

/-- HAR request, from `src/src/types.ts` (`HARRequest`); the optional
metadata fields (`httpVersion`, `queryString`, `cookies`, sizes) that no
classifier or formatter code reads are omitted. -/
structure HARRequest where
  method : String
  url : String
  headers : List HARHeader
  postData : Option HARPostData
deriving DecidableEq

/-- HAR response content, from `src/src/types.ts` (`HARContent`); the
optional `encoding` field, unread by the core, is omitted. -/
structure HARContent where
  size : ℚ
  mimeType : String
  text : Option String
deriving DecidableEq

/-- HAR response, from `src/src/types.ts` (`HARResponse`); unread optional
metadata fields are omitted. -/
structure HARResponse where
  status : Int
  statusText : String
  headers : List HARHeader
  content : HARContent
deriving DecidableEq

/-- HAR entry, from `src/src/types.ts` (`HAREntry`); unread optional
metadata fields are omitted. `time` is the exact rational value of the HAR
duration number. -/
structure HAREntry where
  request : HARRequest
  response : HARResponse
  startedDateTime : String
  time : ℚ
deriving DecidableEq

/-- The `h.name.toLowerCase() === "content-type"` header search of
`isJSONRequest` (`src/src/parser.ts` line 61), with the trailing `|| ""`:
the found header's value, or the empty string. -/
def headerContentType (r : HARRequest) : String :=
  match r.headers.find? (fun h => lowerStr h.name = "content-type") with
  | some h => h.value
  | none => ""

/-- The content type `isJSONRequest` inspects (`src/src/parser.ts` lines
60-61): `entry.request.postData?.mimeType ||` the content-type header's
value `|| ""` — JavaScript `||` falls through on `undefined` and `""`. -/
def requestContentType (r : HARRequest) : String :=
  match r.postData with
  | some pd => if pd.mimeType = "" then headerContentType r else pd.mimeType
  | none => headerContentType r

/-- `isJSONRequest` from `src/src/parser.ts` lines 59-64:
`contentType.includes("application/json")`. -/
def isJSONRequest (e : HAREntry) : Bool :=
  strIncludes (requestContentType e.request) "application/json"

/-- `isJSONResponse` from `src/src/parser.ts` lines 66-68:
`entry.response.content.mimeType.includes("application/json")`. -/
def isJSONResponse (e : HAREntry) : Bool :=
  strIncludes e.response.content.mimeType "application/json"

/-- `isGraphQLRequest` from `src/src/parser.ts` lines 70-82: `false` without
a JSON request content type; `false` when `entry.request.postData?.text` is
`undefined` or `""` (both falsy); otherwise parse the body — a thrown parse
error (and the `TypeError` of a property access on a parsed `null`, both
inside the `try`) gives `false` — and test
`!!(parsed.operationName || parsed.query)`. -/
def isGraphQLRequest (e : HAREntry) : Bool :=
  if !isJSONRequest e then false
  else
    match e.request.postData.map HARPostData.text with
    | none => false
    | some t =>
        if t = "" then false
        else
          match jsonParse t with
          | none => false
          | some v => optTruthy (jsGetField v "operationName") || optTruthy (jsGetField v "query")

/-- `filterJSONAndGraphQLEntries` from `src/src/parser.ts` lines 84-88:
keep entries with a JSON request or response whose
`entry.response.content.text !== undefined`. -/
def filterJSONAndGraphQLEntries (entries : List HAREntry) : List HAREntry :=
  entries.filter (fun e => (isJSONRequest e || isJSONResponse e) && e.response.content.text.isSome)

/-- ECMAScript `Math.round` on the exact rational durations: the nearest
integer, halves rounding toward positive infinity. -/
def mathRound (q : ℚ) : Int :=
  ⌊q + 1 / 2⌋

/-- `parseJSONSafely` from `src/unnamed/part_001` lines 17-24 (also
`src/chrome-extension/formatter.js` lines 54-61): `undefined` for falsy
text (`undefined` or `""`), the parsed value when the text is valid JSON,
the raw text itself when parsing throws. -/
def parseJSONSafely : Option String → Option JsValue
  | none => none
  | some t =>
      if t = "" then none
      else
        match jsonParse t with
        | some v => some v
        | none => some (.str t)

/-- `FormattedRequest` from `src/unnamed/part_001` lines 4-15. -/
structure FormattedRequest where
  index : Nat
  timestamp : String
  duration : Int
  method : String
  url : String
  status : Int
  requestBody : Option JsValue
  responseBody : Option JsValue
  isGraphQL : Bool
  operationName : Option JsValue

/-- `formatEntry` from `src/unnamed/part_001` lines 26-44 (also
`src/chrome-extension/formatter.js` lines 34-52): best-effort decode of
both bodies, `isGraphQL` via `!!(requestBody?.operationName ||
requestBody?.query)`, `duration` via `Math.round(entry.time)`. -/
def formatEntry (e : HAREntry) (index : Nat) : FormattedRequest :=
  let requestBody := parseJSONSafely (e.request.postData.map HARPostData.text)
  let responseBody := parseJSONSafely e.response.content.text
  let isGraphQL :=
    optTruthy (optField requestBody "operationName") || optTruthy (optField requestBody "query")
  { index := index + 1
    timestamp := e.startedDateTime
    duration := mathRound e.time
    method := e.request.method
    url := e.request.url
    status := e.response.status
    requestBody := requestBody
    responseBody := responseBody
    isGraphQL := isGraphQL
    operationName := optField requestBody "operationName" }

/-- JavaScript `s.substring(0, n)` (indices in code points here). -/
def jsSubstring (s : String) (n : Nat) : String :=
  String.mk (s.toList.take n)

/-- The `<operation>` line of one record's unit (`src/unnamed/part_001`
lines 57-59): present only when `entry.isGraphQL && entry.operationName`
is truthy. -/
def operationLines (entry : FormattedRequest) : List String :=
  if entry.isGraphQL && optTruthy entry.operationName then
    ["  <operation>" ++ jsDisplay (entry.operationName.getD .null) ++ "</operation>"]
  else []

/-- The request-body lines of one record's unit (`src/unnamed/part_001`
lines 62-76): the GraphQL query block (plus a variables block when
`variables` is truthy with at least one key) when `entry.isGraphQL &&
entry.requestBody?.query`, else a generic `<request_body>` block when
`entry.requestBody` is truthy, else nothing. -/
def requestBodyLines (entry : FormattedRequest) : List String :=
  if entry.isGraphQL && optTruthy (optField entry.requestBody "query") then
    ["  <graphql_query>",
     jsDisplay ((optField entry.requestBody "query").getD .null),
     "  </graphql_query>"] ++
    (let vField := optField entry.requestBody "variables"
     if optTruthy vField && decide (0 < jsKeysCount (vField.getD .null)) then
       ["  <variables>", jsonStringify2 (vField.getD .null), "  </variables>"]
     else [])
  else
    match entry.requestBody with
    | some rb =>
        if jsTruthy rb then ["  <request_body>", jsonStringify2 rb, "  </request_body>"]
        else []
    | none => []

/-- The response lines of one record's unit (`src/unnamed/part_001` lines
78-87): present only when `entry.responseBody` is truthy; the stringified
body is cut to its first 1000 characters plus a truncation marker when
longer than 1000. -/
def responseLines (entry : FormattedRequest) : List String :=
  match entry.responseBody with
  | some rb =>
      if jsTruthy rb then
        let responseStr := jsonStringify2 rb
        ["  <response>",
         if 1000 < responseStr.length then jsSubstring responseStr 1000 ++ "\n... [truncated]"
         else responseStr,
         "  </response>"]
      else []
  | none => []

/-- All lines pushed for one record inside the `entries.forEach` of
`formatForLLM` (`src/unnamed/part_001` lines 54-90), in push order. -/
def entrySections (entry : FormattedRequest) : List String :=
  ["\n<request index=\"" ++ toString entry.index ++ "\" type=\"" ++
     (if entry.isGraphQL then "graphql" else "rest") ++ "\">",
   "  <url method=\"" ++ entry.method ++ "\">" ++ entry.url ++ "</url>",
   "  <status code=\"" ++ toString entry.status ++ "\" duration=\"" ++
     toString entry.duration ++ "ms\"/>"] ++
  operationLines entry ++ requestBodyLines entry ++ responseLines entry ++
  ["</request>"]

/-- The `<api_requests ...>` summary line of `formatForLLM`
(`src/unnamed/part_001` line 49). -/
def summaryLine (entries : List FormattedRequest) : String :=
  "<api_requests total=\"" ++ toString entries.length ++ "\" graphql=\"" ++
    toString (entries.filter (fun e => e.isGraphQL)).length ++ "\" rest=\"" ++
    toString (entries.filter (fun e => !e.isGraphQL)).length ++ "\">"

/-- JavaScript `Array.prototype.join("\n")` on a list of strings. -/
def joinNL : List String → String
  | [] => ""
  | [s] => s
  | s :: rest => s ++ "\n" ++ joinNL rest

/-- `formatForLLM` from `src/unnamed/part_001` lines 46-97: the summary
line, every record's unit lines in order, the closing tag, joined with
newlines. -/
def formatForLLM (entries : List FormattedRequest) : String :=
  joinNL (summaryLine entries :: ((entries.map entrySections).flatten ++ ["\n</api_requests>"]))

/-- `leadMatch` decides "is a prefix of": `n` leads `h` exactly when `h`
extends `n`. -/
theorem leadMatch_iff (n : List Char) : ∀ h : List Char, leadMatch n h = true ↔ ∃ t, h = n ++ t := by
  induction n with
  | nil =>
      intro h
      simp [leadMatch]
  | cons a as ih =>
      intro h
      cases h with
      | nil => simp [leadMatch]
      | cons b bs =>
          simp only [leadMatch, Bool.and_eq_true, decide_eq_true_eq, List.cons_append]
          constructor
          · rintro ⟨rfl, hm⟩
            obtain ⟨t, rfl⟩ := (ih bs).mp hm
            exact ⟨t, rfl⟩
          · rintro ⟨t, ht⟩
            injection ht with h1 h2
            subst h1
            exact ⟨rfl, (ih bs).mpr ⟨t, h2⟩⟩

/-- `hasOccurrence` decides contiguous-substring occurrence. -/
theorem hasOccurrence_iff (n : List Char) :
    ∀ h : List Char, hasOccurrence n h = true ↔ ∃ p t, h = p ++ n ++ t := by
  intro h
  induction h with
  | nil =>
      simp only [hasOccurrence, List.isEmpty_iff]
      constructor
      · rintro rfl
        exact ⟨[], [], rfl⟩
      · rintro ⟨p, t, ht⟩
        obtain ⟨hpn, _⟩ := List.append_eq_nil.mp ht.symm
        obtain ⟨_, hn⟩ := List.append_eq_nil.mp hpn
        exact hn
  | cons c cs ih =>
      simp only [hasOccurrence, Bool.or_eq_true]
      rw [leadMatch_iff n (c :: cs), ih]
      constructor
      · rintro (⟨t, ht⟩ | ⟨p, t, ht⟩)
        · exact ⟨[], t, by simpa using ht⟩
        · exact ⟨c :: p, t, by simp [ht]⟩
      · rintro ⟨p, t, ht⟩
        cases p with
        | nil => exact Or.inl ⟨t, by simpa using ht⟩
        | cons c1 p1 =>
            injection ht with h1 h2
            exact Or.inr ⟨p1, t, h2⟩

/-- `strIncludes` (JavaScript `includes`) agrees with the specification-level
substring relation `ContainsSub`. -/
theorem strIncludes_iff (s sub : String) : strIncludes s sub = true ↔ ContainsSub s sub := by
  rw [strIncludes, hasOccurrence_iff]
  constructor
  · rintro ⟨p, t, ht⟩
    refine ⟨String.mk p, String.mk t, ?_⟩
    apply String.ext
    simp only [String.data_append]
    exact ht
  · rintro ⟨pre, post, rfl⟩
    refine ⟨pre.data, post.data, ?_⟩
    show (pre ++ sub ++ post).data = pre.data ++ sub.data ++ post.data
    simp [String.data_append]

/-- The record counts split by the GraphQL tag: graphql count plus rest
count is the total. -/
theorem filter_isGraphQL_length_split (l : List FormattedRequest) :
    (l.filter (fun e => e.isGraphQL)).length + (l.filter (fun e => !e.isGraphQL)).length
      = l.length := by
  induction l with
  | nil => rfl
  | cons a l ih =>
      cases h : a.isGraphQL with
      | true =>
          simp [List.filter_cons, h]
          omega
      | false =>
          simp [List.filter_cons, h]
          omega

/-- `Array.prototype.join("\n")` on a nonempty tail separates the head with
one newline. -/
theorem joinNL_cons (a b : String) (l : List String) :
    joinNL (a :: b :: l) = a ++ "\n" ++ joinNL (b :: l) := rfl

/-- Entry whose request post data carries the vendor JSON media type
`application/ld+json` and whose response is not JSON. -/
def c1Entry : HAREntry :=
  { request :=
      { method := "POST"
        url := "https://api.example.com/ld"
        headers := []
        postData := some { mimeType := "application/ld+json", text := "\x7b\x7d" } }
    response :=
      { status := 200
        statusText := "OK"
        headers := []
        content := { size := 0, mimeType := "text/html", text := some "" } }
    startedDateTime := "2024-01-01T00:00:00Z"
    time := 0 }

/-- Entry whose request post data mime type is
`application/json; charset=utf-8`. -/
def c1CharsetEntry : HAREntry :=
  { request :=
      { method := "POST"
        url := "https://api.example.com/users"
        headers := []
        postData := some { mimeType := "application/json; charset=utf-8", text := "\x7b\x7d" } }
    response :=
      { status := 200
        statusText := "OK"
        headers := []
        content := { size := 0, mimeType := "text/html", text := some "" } }
    startedDateTime := "2024-01-01T00:00:00Z"
    time := 0 }

/-- C1, counterexample: `"application/ld+json"` contains the substring
`"json"`, so the claim classifies this request as JSON, but
`isJSONRequest` — which tests for the substring `"application/json"`
(`src/src/parser.ts` line 63) — returns `false`. -/
theorem c1_counterexample :
    isJSONRequest c1Entry = false ∧
      ContainsSub (requestContentType c1Entry.request) "json" := by
  refine ⟨by decide, "application/ld+", "", rfl⟩

/-- C1 (amended): `isJSONRequest` is true exactly when the request's body
MIME type — or, as fallback, the first case-insensitively matching
`content-type` header value, defaulting to the empty string — contains the
substring `"application/json"` (not the bare `"json"` of the claim), and
`isJSONResponse` is true exactly when the response's body MIME type
contains `"application/json"`. -/
theorem c1_json_classification (e : HAREntry) :
    (isJSONRequest e = true ↔ ContainsSub (requestContentType e.request) "application/json") ∧
    (isJSONResponse e = true ↔ ContainsSub e.response.content.mimeType "application/json") :=
  ⟨strIncludes_iff _ _, strIncludes_iff _ _⟩

/-- C1, witness: a `application/json; charset=utf-8` request classifies as
JSON through `c1_json_classification`. -/
theorem c1_witness : isJSONRequest c1CharsetEntry = true :=
  ((c1_json_classification c1CharsetEntry).1).mpr ⟨"", "; charset=utf-8", rfl⟩

/-- C2, counterexample: the empty string is not valid JSON, yet the
best-effort decode of `parseJSONSafely` returns `undefined` (absent) for
it — not the original text — because `if (!text)` also catches `""`
(`src/unnamed/part_001` line 18). -/
theorem c2_counterexample :
    jsonParse "" = none ∧ parseJSONSafely (some "") = none ∧
      parseJSONSafely (some "") ≠ some (JsValue.str "") :=
  ⟨rfl, rfl, fun h => Option.noConfusion h⟩

/-- C2 (amended): for every nonempty body text that is not valid JSON, the
best-effort decode never raises and the normalized body value is the
original text unchanged, for both `requestBody` and `responseBody`; an
empty body text instead normalizes to the absent value. -/
theorem c2_invalid_body_raw (t : String) (h1 : t ≠ "") (h2 : jsonParse t = none) :
    parseJSONSafely (some t) = some (JsValue.str t) ∧
    ∀ e : HAREntry, ∀ i : Nat,
      (e.request.postData.map HARPostData.text = some t →
        (formatEntry e i).requestBody = some (JsValue.str t)) ∧
      (e.response.content.text = some t →
        (formatEntry e i).responseBody = some (JsValue.str t)) := by
  have hp : parseJSONSafely (some t) = some (JsValue.str t) := by
    simp [parseJSONSafely, h1, h2]
  refine ⟨hp, fun e i => ⟨fun hr => ?_, fun hs => ?_⟩⟩
  · show parseJSONSafely (e.request.postData.map HARPostData.text) = some (JsValue.str t)
    rw [hr, hp]
  · show parseJSONSafely e.response.content.text = some (JsValue.str t)
    rw [hs, hp]

/-- C2, witness: the invalid body text `"not json"` normalizes to itself. -/
theorem c2_witness : parseJSONSafely (some "not json") = some (JsValue.str "not json") :=
  (c2_invalid_body_raw "not json" (by decide) rfl).1

/-- C3: `filterJSONAndGraphQLEntries` returns a subsequence of its input
(original relative order, no reordering); membership is exactly
(JSON request or JSON response) together with a defined response body
text; occurrence counts are preserved for surviving entries (no
deduplication); and an entry with undefined response body text never
survives. -/
theorem c3_filterEntries (entries : List HAREntry) :
    List.Sublist (filterJSONAndGraphQLEntries entries) entries ∧
    (∀ e : HAREntry,
      e ∈ filterJSONAndGraphQLEntries entries ↔
        e ∈ entries ∧ (isJSONRequest e || isJSONResponse e) = true ∧
          e.response.content.text ≠ none) ∧
    (∀ e : HAREntry,
      ((isJSONRequest e || isJSONResponse e) && e.response.content.text.isSome) = true →
        (filterJSONAndGraphQLEntries entries).count e = entries.count e) ∧
    (∀ e : HAREntry, e.response.content.text = none →
        (filterJSONAndGraphQLEntries entries).count e = 0) := by
  refine ⟨List.filter_sublist entries, fun e => ?_, fun e h => List.count_filter h, fun e h => ?_⟩
  · rw [filterJSONAndGraphQLEntries, List.mem_filter]
    simp [Option.isSome_iff_ne_none, and_assoc]
  · rw [List.count_eq_zero]
    intro hmem
    have := (List.mem_filter.mp hmem).2
    simp [h] at this

/-- Entry with a JSON response whose body text is the empty string: it
survives the filter. -/
def c3KeptEntry : HAREntry :=
  { request :=
      { method := "GET"
        url := "https://api.example.com/empty"
        headers := []
        postData := none }
    response :=
      { status := 204
        statusText := "No Content"
        headers := []
        content := { size := 0, mimeType := "application/json", text := some "" } }
    startedDateTime := "2024-01-01T00:00:00Z"
    time := 1 }

/-- C3, witness: an entry whose response body text is the empty string is
kept by the filter. -/
theorem c3_witness : c3KeptEntry ∈ filterJSONAndGraphQLEntries [c3KeptEntry] :=
  ((c3_filterEntries [c3KeptEntry]).2.1 c3KeptEntry).mpr
    ⟨List.mem_singleton.mpr rfl, by decide, by simp [c3KeptEntry]⟩

/-- One escaped character is at least one character. -/
theorem escChars_length_pos (c : Char) : 1 ≤ (escChars c).length := by
  rw [escChars]
  split_ifs <;> simp

/-- Escaping the content of a string literal yields at least one character
per source character, plus the closing quote. -/
theorem escFold_length (l : List Char) :
    l.length + 1 ≤ (l.foldr (fun c acc => escChars c ++ acc) ['"']).length := by
  induction l with
  | nil => simp
  | cons c cs ih =>
      simp only [List.foldr_cons, List.length_append, List.length_cons]
      have hc := escChars_length_pos c
      omega

/-- A JSON string literal is strictly longer than the string it quotes, so
the two never coincide. -/
theorem quoteJSONString_ne (s : String) : quoteJSONString s ≠ s := by
  intro h
  have h1 := escFold_length s.data
  have h2 : (quoteJSONString s).length =
      (s.data.foldr (fun c acc => escChars c ++ acc) ['"']).length + 1 := by
    show (List.length _) = _
    simp [quoteJSONString]
  have h3 : s.length = s.data.length := rfl
  rw [h] at h2
  omega

/-- Entry whose JSON response body text is `"false"`: the decoded response
body exists (it is the boolean `false`) but is falsy. -/
def c4Entry : HAREntry :=
  { request :=
      { method := "GET"
        url := "https://api.example.com/flag"
        headers := []
        postData := none }
    response :=
      { status := 200
        statusText := "OK"
        headers := []
        content := { size := 5, mimeType := "application/json", text := some "false" } }
    startedDateTime := "2024-01-01T00:00:00Z"
    time := 10 }

/-- C4, counterexample: this record's response body value exists and its
pretty-printed form `"false"` is only 5 characters, so the claim requires
it rendered in full; but `if (entry.responseBody)` (`src/unnamed/part_001`
line 78) tests truthiness, the decoded `false` is falsy, and no response
section is rendered at all. -/
theorem c4_counterexample :
    (formatEntry c4Entry 0).responseBody = some (JsValue.bool false) ∧
    jsonStringify2 (JsValue.bool false) = "false" ∧
    (jsonStringify2 (JsValue.bool false)).length ≤ 1000 ∧
    responseLines (formatEntry c4Entry 0) = [] ∧
    "  <response>" ∉ entrySections (formatEntry c4Entry 0) :=
  ⟨rfl, rfl, by decide, rfl, by decide⟩

/-- C4 (amended): for every record whose response body value exists and is
truthy, the response section is exactly the pretty-printed text when its
length is at most 1000, and exactly its first 1000 characters followed by
the truncation marker when longer; the cap is applied per record. Records
whose response body exists but is falsy (`false`, `null`, `0`, `""`)
render no response section at all (see the counterexample). -/
theorem c4_response_truncation (r : FormattedRequest) (v : JsValue)
    (hv : r.responseBody = some v) (ht : jsTruthy v = true) :
    responseLines r =
      ["  <response>",
       if 1000 < (jsonStringify2 v).length
         then jsSubstring (jsonStringify2 v) 1000 ++ "\n... [truncated]"
         else jsonStringify2 v,
       "  </response>"] ∧
    (1000 < (jsonStringify2 v).length →
       (jsSubstring (jsonStringify2 v) 1000).length = 1000) := by
  constructor
  · simp [responseLines, hv, ht]
  · intro h
    have hlen : (jsonStringify2 v).toList.length = (jsonStringify2 v).length := rfl
    show ((jsonStringify2 v).toList.take 1000).length = 1000
    rw [List.length_take]
    omega

/-- Record with a short truthy response body. -/
def c4Rec : FormattedRequest :=
  { index := 1
    timestamp := "2024-01-01T00:00:00Z"
    duration := 5
    method := "GET"
    url := "https://api.example.com/ok"
    status := 200
    requestBody := none
    responseBody := some (.str "ok")
    isGraphQL := false
    operationName := none }

/-- C4, witness: a 4-character pretty-printed response body is rendered in
full, untruncated. -/
theorem c4_witness : responseLines c4Rec = ["  <response>", "\"ok\"", "  </response>"] := by
  have h := (c4_response_truncation c4Rec (.str "ok") rfl rfl).1
  rw [h]
  rfl

/-- Entry with a GraphQL-shaped JSON request body, for the C5 witness. -/
def c5Entry : HAREntry :=
  { request :=
      { method := "POST"
        url := "https://api.example.com/graphql"
        headers := []
        postData := some { mimeType := "application/json", text := "\x7b\"query\":\"q\"\x7d" } }
    response :=
      { status := 200
        statusText := "OK"
        headers := []
        content := { size := 2, mimeType := "application/json", text := some "\x7b\x7d" } }
    startedDateTime := "2024-01-01T00:00:00Z"
    time := 12 }

/-- C5: `isGraphQLRequest` is `false` whenever `isJSONRequest` is `false`;
`false` when the request has no (or an empty, hence falsy) body text;
`false` when the body text fails to parse as JSON; and otherwise `true`
exactly when the parsed structure has a non-falsy `operationName` or
`query` field. -/
theorem c5_isGraphQLRequest (e : HAREntry) :
    (isJSONRequest e = false → isGraphQLRequest e = false) ∧
    (e.request.postData.map HARPostData.text = none → isGraphQLRequest e = false) ∧
    (e.request.postData.map HARPostData.text = some "" → isGraphQLRequest e = false) ∧
    (∀ t : String, e.request.postData.map HARPostData.text = some t → jsonParse t = none →
        isGraphQLRequest e = false) ∧
    (∀ t : String, ∀ v : JsValue,
        isJSONRequest e = true → e.request.postData.map HARPostData.text = some t →
        t ≠ "" → jsonParse t = some v →
        (isGraphQLRequest e = true ↔
          (optTruthy (jsGetField v "operationName") || optTruthy (jsGetField v "query")) = true)) := by
  refine ⟨fun h => ?_, fun h => ?_, fun h => ?_, fun t h hp => ?_, fun t v hj h hne hp => ?_⟩
  · simp [isGraphQLRequest, h]
  · simp [isGraphQLRequest, h]
  · simp [isGraphQLRequest, h]
  · simp [isGraphQLRequest, h, hp]
  · simp [isGraphQLRequest, hj, h, hne, hp]

/-- C5, witness: a JSON request whose body parses to an object with a
non-falsy `query` field is detected as GraphQL. -/
theorem c5_witness : isGraphQLRequest c5Entry = true := by
  have h := (c5_isGraphQLRequest c5Entry).2.2.2.2 "\x7b\"query\":\"q\"\x7d"
    (JsValue.obj (.cons "query" (.str "q") .nil)) rfl rfl (by decide) rfl
  exact h.mpr rfl

/-- Entry whose JSON response body text is `"null"`: the decoded response
body value exists (it is `null`) but is falsy. -/
def c6Entry : HAREntry :=
  { request :=
      { method := "GET"
        url := "https://api.example.com/nothing"
        headers := []
        postData := none }
    response :=
      { status := 200
        statusText := "OK"
        headers := []
        content := { size := 4, mimeType := "application/json", text := some "null" } }
    startedDateTime := "2024-01-01T00:00:00Z"
    time := 3 }

/-- Entry with neither request body nor response body, for the C6
witness. -/
def c6BareEntry : HAREntry :=
  { request :=
      { method := "GET"
        url := "https://api.example.com/bare"
        headers := [{ name := "Accept", value := "application/json" }]
        postData := none }
    response :=
      { status := 204
        statusText := "No Content"
        headers := []
        content := { size := 0, mimeType := "application/json", text := none } }
    startedDateTime := "2024-01-01T00:00:00Z"
    time := 0 }

/-- C6, counterexample: this record's `responseBody` value exists (it is
the decoded `null`), but the rendered unit contains no response-body
section, because the rendering gate is truthiness, not existence
(`src/unnamed/part_001` line 78). -/
theorem c6_counterexample :
    (formatEntry c6Entry 0).responseBody = some JsValue.null ∧
    responseLines (formatEntry c6Entry 0) = [] ∧
    "  <response>" ∉ entrySections (formatEntry c6Entry 0) :=
  ⟨rfl, rfl, by decide⟩

/-- C6 (amended): the rendered per-record unit contains a response-body
section exactly when the record's `responseBody` exists and is truthy
(existing falsy values — `null`, `false`, `0`, `""` — render none); and a
record formatted from an entry with neither request body text nor
response body text still yields a valid rendered unit consisting of just
the header, url and status lines and the closing tag, with all optional
sections absent. -/
theorem c6_response_section_iff (r : FormattedRequest) :
    (responseLines r ≠ [] ↔ optTruthy r.responseBody = true) ∧
    (∀ e : HAREntry, ∀ i : Nat, e.request.postData = none → e.response.content.text = none →
      entrySections (formatEntry e i) =
        ["\n<request index=\"" ++ toString (i + 1) ++ "\" type=\"rest\">",
         "  <url method=\"" ++ e.request.method ++ "\">" ++ e.request.url ++ "</url>",
         "  <status code=\"" ++ toString e.response.status ++ "\" duration=\"" ++
           toString (mathRound e.time) ++ "ms\"/>",
         "</request>"]) := by
  constructor
  · cases hrb : r.responseBody with
    | none => simp [responseLines, hrb, optTruthy]
    | some v =>
        cases htv : jsTruthy v with
        | false => simp [responseLines, hrb, htv, optTruthy]
        | true => simp [responseLines, hrb, htv, optTruthy]
  · intro e i hpd hct
    have hfe : formatEntry e i =
        { index := i + 1
          timestamp := e.startedDateTime
          duration := mathRound e.time
          method := e.request.method
          url := e.request.url
          status := e.response.status
          requestBody := none
          responseBody := none
          isGraphQL := false
          operationName := none } := by
      simp [formatEntry, hpd, hct, parseJSONSafely, optField, optTruthy]
    rw [hfe]
    simp only [entrySections, operationLines, requestBodyLines, responseLines, optField,
      optTruthy, Bool.false_and, if_neg Bool.false_ne_true, if_false, Bool.and_self]
    simp only [String.append_assoc]
    rfl

/-- C6, witness: an entry with neither body renders a valid, minimal
unit. -/
theorem c6_witness :
    entrySections (formatEntry c6BareEntry 0) =
      ["\n<request index=\"1\" type=\"rest\">",
       "  <url method=\"GET\">https://api.example.com/bare</url>",
       "  <status code=\"204\" duration=\"0ms\"/>",
       "</request>"] := by
  have h := (c6_response_section_iff (formatEntry c6BareEntry 0)).2 c6BareEntry 0 rfl rfl
  have hmr : mathRound c6BareEntry.time = 0 := by
    show mathRound ((0 : ℚ)) = 0
    rw [mathRound]
    norm_num
  rw [h, hmr]
  decide

/-- Entry with the fractional duration 150.5 ms. -/
def c7Entry : HAREntry :=
  { request :=
      { method := "GET"
        url := "https://api.example.com/slow"
        headers := []
        postData := none }
    response :=
      { status := 200
        statusText := "OK"
        headers := []
        content := { size := 2, mimeType := "application/json", text := some "\x7b\x7d" } }
    startedDateTime := "2024-01-01T00:00:00Z"
    time := (301 : ℚ) / 2 }

/-- Entry with the fractional duration 2.6 ms. -/
def c7RoundUpEntry : HAREntry :=
  { request :=
      { method := "GET"
        url := "https://api.example.com/quick"
        headers := []
        postData := none }
    response :=
      { status := 200
        statusText := "OK"
        headers := []
        content := { size := 2, mimeType := "application/json", text := some "\x7b\x7d" } }
    startedDateTime := "2024-01-01T00:00:00Z"
    time := (13 : ℚ) / 5 }

/-- C7, counterexample: at the input duration 150.5 the displayed duration
is `Math.round`'s 151 (`src/unnamed/part_001` line 35), not the claim's
floor 150. -/
theorem c7_counterexample :
    (formatEntry c7Entry 0).duration = 151 ∧ (⌊c7Entry.time⌋ : Int) = 150 ∧
      (formatEntry c7Entry 0).duration ≠ ⌊c7Entry.time⌋ := by
  have h1 : (formatEntry c7Entry 0).duration = 151 := by
    show mathRound ((301 : ℚ) / 2) = 151
    rw [mathRound]
    norm_num
  have h2 : (⌊c7Entry.time⌋ : Int) = 150 := by
    show (⌊(301 : ℚ) / 2⌋ : Int) = 150
    norm_num
  refine ⟨h1, h2, ?_⟩
  rw [h1, h2]
  decide

/-- C7 (amended): the displayed duration is the input duration rounded to
the nearest integer with halves rounding up (`Math.round`), not its
floor: it equals `n` exactly when the input lies in `[n - 1/2, n + 1/2)`. -/
theorem c7_duration_round (e : HAREntry) (i : Nat) (n : Int) :
    (formatEntry e i).duration = n ↔
      ((n : ℚ) - 1 / 2 ≤ e.time ∧ e.time < (n : ℚ) + 1 / 2) := by
  show mathRound e.time = n ↔ _
  rw [mathRound, Int.floor_eq_iff]
  constructor
  · rintro ⟨ha, hb⟩
    exact ⟨by linarith, by linarith⟩
  · rintro ⟨ha, hb⟩
    exact ⟨by linarith, by linarith⟩

/-- C7, witness: 2.6 ms rounds to 3 ms. -/
theorem c7_witness : (formatEntry c7RoundUpEntry 0).duration = 3 :=
  (c7_duration_round c7RoundUpEntry 0 3).mpr (by constructor <;> norm_num [c7RoundUpEntry])

/-- Plain REST record for the C8 witness. -/
def c8RestRec : FormattedRequest :=
  { index := 1
    timestamp := "2024-01-01T00:00:00Z"
    duration := 5
    method := "GET"
    url := "https://api.example.com/a"
    status := 200
    requestBody := none
    responseBody := none
    isGraphQL := false
    operationName := none }

/-- GraphQL-tagged record for the C8 witness. -/
def c8GqlRec : FormattedRequest :=
  { index := 2
    timestamp := "2024-01-01T00:00:01Z"
    duration := 7
    method := "POST"
    url := "https://api.example.com/graphql"
    status := 200
    requestBody := none
    responseBody := none
    isGraphQL := true
    operationName := some (.str "Op") }

/-- C8: the rendered report begins with a single summary line that
precedes all per-record units and reports total = the number of records,
graphql = the number of records tagged GraphQL, and rest = the number not
tagged, which equals total minus graphql. -/
theorem c8_summary_line (entries : List FormattedRequest) :
    formatForLLM entries =
      "<api_requests total=\"" ++ toString entries.length ++ "\" graphql=\"" ++
        toString (entries.filter (fun e => e.isGraphQL)).length ++ "\" rest=\"" ++
        toString (entries.filter (fun e => !e.isGraphQL)).length ++ "\">" ++ "\n" ++
        joinNL ((entries.map entrySections).flatten ++ ["\n</api_requests>"]) ∧
    (entries.filter (fun e => !e.isGraphQL)).length
      = entries.length - (entries.filter (fun e => e.isGraphQL)).length := by
  constructor
  · rw [formatForLLM]
    cases hfl : (entries.map entrySections).flatten with
    | nil => rfl
    | cons x xs => rfl
  · have h := filter_isGraphQL_length_split entries
    omega

/-- C8, witness: with one REST and one GraphQL record the summary line
reports total 2, graphql 1, rest 1. -/
theorem c8_witness :
    formatForLLM [c8RestRec, c8GqlRec] =
      "<api_requests total=\"2\" graphql=\"1\" rest=\"1\">" ++ "\n" ++
        joinNL (([c8RestRec, c8GqlRec].map entrySections).flatten ++ ["\n</api_requests>"]) := by
  have h := (c8_summary_line [c8RestRec, c8GqlRec]).1
  rw [h]
  rfl

/-- Entry with a GraphQL-shaped JSON request body (an `operationName`
field), for the C9 witness. -/
def c9Entry : HAREntry :=
  { request :=
      { method := "POST"
        url := "https://api.example.com/graphql"
        headers := [{ name := "Content-Type", value := "application/json" }]
        postData := some { mimeType := "application/json", text := "\x7b\"operationName\":\"Op\"\x7d" } }
    response :=
      { status := 200
        statusText := "OK"
        headers := []
        content := { size := 2, mimeType := "application/json", text := some "\x7b\x7d" } }
    startedDateTime := "2024-01-01T00:00:00Z"
    time := 8 }

/-- C9: whenever the classifier's `isGraphQLRequest` accepts an entry, the
record built by `formatEntry` carries `isGraphQL = true` — the formatter's
tag never misses an entry the classifier deems GraphQL. -/
theorem c9_classifier_graphql_implies_record_tag (e : HAREntry) (i : Nat)
    (h : isGraphQLRequest e = true) : (formatEntry e i).isGraphQL = true := by
  cases hj : isJSONRequest e with
  | false => simp [isGraphQLRequest, hj] at h
  | true =>
      cases hpd : e.request.postData.map HARPostData.text with
      | none => simp [isGraphQLRequest, hj, hpd] at h
      | some t =>
          by_cases hte : t = ""
          · simp [isGraphQLRequest, hj, hpd, hte] at h
          · cases hjp : jsonParse t with
            | none => simp [isGraphQLRequest, hj, hpd, hte, hjp] at h
            | some v =>
                have h2 : (optTruthy (jsGetField v "operationName")
                    || optTruthy (jsGetField v "query")) = true := by
                  simpa [isGraphQLRequest, hj, hpd, hte, hjp] using h
                show (optTruthy (optField
                      (parseJSONSafely (e.request.postData.map HARPostData.text)) "operationName")
                    || optTruthy (optField
                      (parseJSONSafely (e.request.postData.map HARPostData.text)) "query")) = true
                rw [hpd]
                have hps : parseJSONSafely (some t) = some v := by
                  simp [parseJSONSafely, hte, hjp]
                rw [hps]
                simpa [optField] using h2

/-- C9, witness: the `operationName`-bearing JSON request is accepted by
the classifier and tagged by the formatter. -/
theorem c9_witness : (formatEntry c9Entry 0).isGraphQL = true :=
  c9_classifier_graphql_implies_record_tag c9Entry 0 (by decide)

/-- Entry whose request body text `"oops("` is nonempty and not valid
JSON, for the C10 witness. -/
def c10Entry : HAREntry :=
  { request :=
      { method := "POST"
        url := "https://api.example.com/raw"
        headers := []
        postData := some { mimeType := "application/json", text := "oops(" } }
    response :=
      { status := 400
        statusText := "Bad Request"
        headers := []
        content := { size := 2, mimeType := "application/json", text := some "\x7b\x7d" } }
    startedDateTime := "2024-01-01T00:00:00Z"
    time := 4 }

/-- Entry whose request body text exists but is the empty string. -/
def c10EmptyEntry : HAREntry :=
  { request :=
      { method := "POST"
        url := "https://api.example.com/empty-body"
        headers := []
        postData := some { mimeType := "application/json", text := "" } }
    response :=
      { status := 200
        statusText := "OK"
        headers := []
        content := { size := 2, mimeType := "application/json", text := some "\x7b\x7d" } }
    startedDateTime := "2024-01-01T00:00:00Z"
    time := 4 }

/-- C10, counterexample: this entry's request body text exists (`""`) and
is not valid JSON, yet the normalized `requestBody` is absent — not the
raw string — and no generic request-body block is rendered at all, so the
claim fails for the empty body text. -/
theorem c10_counterexample :
    c10EmptyEntry.request.postData.map HARPostData.text = some "" ∧
    jsonParse "" = none ∧
    (formatEntry c10EmptyEntry 0).requestBody = none ∧
    requestBodyLines (formatEntry c10EmptyEntry 0) = [] :=
  ⟨rfl, rfl, rfl, rfl⟩

/-- C10 (amended): for every entry whose request body text exists, is
nonempty, and is not valid JSON — so the normalized `requestBody` is the
raw string — the rendered generic request-body block contains exactly the
JSON string literal of that text (double quotes, inner quotes and
backslashes escaped), which is never the raw text verbatim; an entry whose
body text is the empty string renders no block (see the
counterexample). -/
theorem c10_raw_request_body_quoted (e : HAREntry) (i : Nat) (s : String)
    (htext : e.request.postData.map HARPostData.text = some s)
    (hne : s ≠ "") (hinv : jsonParse s = none) :
    (formatEntry e i).requestBody = some (JsValue.str s) ∧
    requestBodyLines (formatEntry e i) =
      ["  <request_body>", quoteJSONString s, "  </request_body>"] ∧
    quoteJSONString s ≠ s := by
  have hps : parseJSONSafely (some s) = some (JsValue.str s) := by
    simp [parseJSONSafely, hne, hinv]
  have hrb : (formatEntry e i).requestBody = some (JsValue.str s) := by
    show parseJSONSafely (e.request.postData.map HARPostData.text) = some (JsValue.str s)
    rw [htext, hps]
  have hg : (formatEntry e i).isGraphQL = false := by
    show (optTruthy (optField
          (parseJSONSafely (e.request.postData.map HARPostData.text)) "operationName")
        || optTruthy (optField
          (parseJSONSafely (e.request.postData.map HARPostData.text)) "query")) = false
    rw [htext, hps]
    rfl
  refine ⟨hrb, ?_, quoteJSONString_ne s⟩
  simp [requestBodyLines, hrb, hg, jsTruthy, hne, jsonStringify2, strGo]

/-- C10, witness: the invalid body text `"oops("` is rendered as the JSON
string literal `"oops("` inside the generic request-body block. -/
theorem c10_witness :
    requestBodyLines (formatEntry c10Entry 0) =
      ["  <request_body>", quoteJSONString "oops(", "  </request_body>"] :=
  (c10_raw_request_body_quoted c10Entry 0 "oops(" rfl (by decide) rfl).2.1
